import Mathlib

/-!
Verification of the table redaction / search / visualization-preparation
pipeline of the data-donation consent UI.

The definitions below are a shallow embedding of the TypeScript source:

* `deleteTableRows`, `searchRows` — `table_container.tsx`
  (delete/undo ledger and the row search/filter engine);
* `applyDeletion`, `undoLast` — the bodies of `handleDelete` / `handleUndo`
  in the same file, restricted to the table-valued part;
* `parseTable`, `serializeRow`, `serializeTable` — `consent_form.tsx`;
* `createVisualizationData`, `workerReply` — `visualizationDataWorker.ts`;
* `hookHandle` — the `worker.onmessage` handler of `useVisualizationData.ts`.

JavaScript `Set<string>` values are modelled by lists, with membership via
`List.contains`; JavaScript objects (string-keyed records) are modelled by
association lists in key-insertion order.  Presentational table fields
(title, description, annotations, visualizations) are elided: no claim
reads them and every operation copies them unchanged via object spread.
-/

/-- A table row: stable identifier plus the ordered cell values
(`PropsUITableRow` in `types/elements`). -/
structure PropsUITableRow where
  id : String
  cells : List String
deriving Repr, DecidableEq

/-- Ordered column labels (`PropsUITableHead`). -/
structure PropsUITableHead where
  cells : List String
deriving Repr, DecidableEq

/-- A table body: the ordered row sequence (`PropsUITableBody`). -/
structure PropsUITableBody where
  rows : List PropsUITableRow
deriving Repr, DecidableEq

/-- The table value threaded through the consent UI (`TableWithContext`):
the immutable `originalBody` as parsed, the derived visible `body`, the
ledger `deletedRows` of deletion batches, and the derived
`deletedRowCount`. -/
structure TableWithContext where
  id : String
  head : PropsUITableHead
  body : PropsUITableBody
  originalBody : PropsUITableBody
  deletedRows : List (List String)
  deletedRowCount : Nat
deriving Repr, DecidableEq

/-- `deleteTableRows` from `table_container.tsx`: collect every id of every
batch into one set (here: the concatenation, queried by membership), keep
exactly the original rows whose id is not in that set, and recompute
`deletedRowCount` as the number of removed rows. -/
def deleteTableRows (table : TableWithContext) (deletedRows : List (List String)) :
    TableWithContext :=
  let deleteIds := deletedRows.flatten
  let rows := table.originalBody.rows.filter (fun row => ¬ deleteIds.contains row.id)
  { table with
    body := { rows := rows }
    deletedRowCount := table.originalBody.rows.length - rows.length
    deletedRows := deletedRows }

/-- The table update performed by `handleDelete` for a nonempty explicit
batch: append the batch to the ledger and recompute via `deleteTableRows`. -/
def applyDeletion (table : TableWithContext) (newBatch : List String) : TableWithContext :=
  deleteTableRows table (table.deletedRows ++ [newBatch])

/-- The table update performed by `handleUndo`: drop the most recent batch
(`deletedRows.slice(0, -1)`) and recompute via `deleteTableRows`. -/
def undoLast (table : TableWithContext) : TableWithContext :=
  deleteTableRows table table.deletedRows.dropLast

/-- One ledger operation: a deletion batch or an undo. -/
inductive LedgerOp where
  | delete (batch : List String)
  | undo
deriving Repr, DecidableEq

/-- Apply one ledger operation to a table. -/
def applyOp : LedgerOp → TableWithContext → TableWithContext
  | .delete batch, t => applyDeletion t batch
  | .undo, t => undoLast t

/-- Apply a sequence of ledger operations, oldest first. -/
def applyOps (ops : List LedgerOp) (t : TableWithContext) : TableWithContext :=
  ops.foldl (fun t op => applyOp op t) t

/-- The data-model invariant of §3: the visible rows are exactly the
original rows whose id is not in any deletion batch, in original order,
and `deletedRowCount` is the number of removed rows. -/
def tableInvariant (t : TableWithContext) : Prop :=
  t.body.rows =
    t.originalBody.rows.filter (fun row => ¬ t.deletedRows.flatten.contains row.id) ∧
  t.deletedRowCount = t.originalBody.rows.length - t.body.rows.length

instance (t : TableWithContext) : Decidable (tableInvariant t) := by
  unfold tableInvariant; infer_instance

lemma deleteTableRows_tableInvariant (t : TableWithContext) (dr : List (List String)) :
    tableInvariant (deleteTableRows t dr) := by
  constructor <;> rfl

lemma deleteTableRows_originalBody (t : TableWithContext) (dr : List (List String)) :
    (deleteTableRows t dr).originalBody = t.originalBody := rfl

lemma applyOp_tableInvariant (op : LedgerOp) (t : TableWithContext) :
    tableInvariant (applyOp op t) := by
  cases op <;> exact deleteTableRows_tableInvariant _ _

lemma applyOp_originalBody (op : LedgerOp) (t : TableWithContext) :
    (applyOp op t).originalBody = t.originalBody := by
  cases op <;> rfl

lemma applyOps_originalBody (ops : List LedgerOp) (t : TableWithContext) :
    (applyOps ops t).originalBody = t.originalBody := by
  induction ops generalizing t with
  | nil => rfl
  | cons o os ih =>
    have h1 : applyOps (o :: os) t = applyOps os (applyOp o t) := rfl
    rw [h1, ih (applyOp o t), applyOp_originalBody]

/-- **C1.** After every operation of any applyDeletion/undoLast sequence,
`body.rows` is exactly `originalBody.rows` with the rows whose id lies in
the union of the batches of `deletedRows` removed, in original relative
order, and `deletedRowCount = originalBody.rows.length - body.rows.length`;
moreover `originalBody` is never changed. -/
theorem ledger_invariant_after_ops (t : TableWithContext) (ops : List LedgerOp)
    (h : ops ≠ []) :
    tableInvariant (applyOps ops t) ∧ (applyOps ops t).originalBody = t.originalBody := by
  refine ⟨?_, applyOps_originalBody ops t⟩
  induction ops generalizing t with
  | nil => exact absurd rfl h
  | cons o os ih =>
    cases os with
    | nil => simpa [applyOps] using applyOp_tableInvariant o t
    | cons o2 os2 =>
      have step : applyOps (o :: o2 :: os2) t = applyOps (o2 :: os2) (applyOp o t) := rfl
      rw [step]
      exact ih (applyOp o t) (by simp)

/-- Witness for C1 at a concrete table and operation sequence. -/
theorem ledger_invariant_after_ops_witness :
    ([LedgerOp.delete ["0"], LedgerOp.undo] ≠ ([] : List LedgerOp)) ∧
    (tableInvariant (applyOps [LedgerOp.delete ["0"], LedgerOp.undo]
        { id := "t", head := ⟨["Type", "Value"]⟩,
          body := ⟨[⟨"0", ["TypeA", "x"]⟩, ⟨"1", ["TypeB", "y"]⟩]⟩,
          originalBody := ⟨[⟨"0", ["TypeA", "x"]⟩, ⟨"1", ["TypeB", "y"]⟩]⟩,
          deletedRows := [], deletedRowCount := 0 }) ∧
      (applyOps [LedgerOp.delete ["0"], LedgerOp.undo]
        { id := "t", head := ⟨["Type", "Value"]⟩,
          body := ⟨[⟨"0", ["TypeA", "x"]⟩, ⟨"1", ["TypeB", "y"]⟩]⟩,
          originalBody := ⟨[⟨"0", ["TypeA", "x"]⟩, ⟨"1", ["TypeB", "y"]⟩]⟩,
          deletedRows := [], deletedRowCount := 0 }).originalBody =
        ⟨[⟨"0", ["TypeA", "x"]⟩, ⟨"1", ["TypeB", "y"]⟩]⟩) :=
  ⟨by decide, by
    have h := ledger_invariant_after_ops
      { id := "t", head := ⟨["Type", "Value"]⟩,
        body := ⟨[⟨"0", ["TypeA", "x"]⟩, ⟨"1", ["TypeB", "y"]⟩]⟩,
        originalBody := ⟨[⟨"0", ["TypeA", "x"]⟩, ⟨"1", ["TypeB", "y"]⟩]⟩,
        deletedRows := [], deletedRowCount := 0 }
      [LedgerOp.delete ["0"], LedgerOp.undo] (by decide)
    exact h⟩

lemma deleteTableRows_nil_eq_self (t : TableWithContext) (hInv : tableInvariant t)
    (hdr : t.deletedRows = []) : deleteTableRows t [] = t := by
  obtain ⟨h1, h2⟩ := hInv
  rw [hdr] at h1
  simp at h1
  cases t with
  | mk i hd b ob dr c =>
    cases b with
    | mk rows =>
      dsimp at h1 h2 hdr
      subst hdr
      subst h1
      simp [deleteTableRows, h2]

/-- **C2.** `applyDeletion` immediately followed by `undoLast` restores the
prior visible row sequence exactly, and `undoLast` on a table whose
`deletedRows` ledger is empty is a no-op. -/
theorem applyDeletion_undoLast_roundtrip (t : TableWithContext) (hInv : tableInvariant t)
    (batch : List String) :
    (undoLast (applyDeletion t batch)).body.rows = t.body.rows ∧
    ∀ t2 : TableWithContext, tableInvariant t2 → t2.deletedRows = [] → undoLast t2 = t2 := by
  constructor
  · have h0 : (applyDeletion t batch).deletedRows.dropLast = t.deletedRows := by
      simp [applyDeletion, deleteTableRows]
    unfold undoLast
    rw [h0]
    exact hInv.1.symm
  · intro t2 hInv2 hdr2
    unfold undoLast
    rw [hdr2]
    exact deleteTableRows_nil_eq_self t2 hInv2 hdr2

/-- Witness for C2 on the spec §8 scenario table. -/
theorem applyDeletion_undoLast_roundtrip_witness :
    tableInvariant
      { id := "t", head := ⟨["Type", "Value"]⟩,
        body := ⟨[⟨"0", ["TypeA", "x"]⟩, ⟨"1", ["TypeB", "y"]⟩]⟩,
        originalBody := ⟨[⟨"0", ["TypeA", "x"]⟩, ⟨"1", ["TypeB", "y"]⟩]⟩,
        deletedRows := [], deletedRowCount := 0 } ∧
    ((undoLast (applyDeletion
        { id := "t", head := ⟨["Type", "Value"]⟩,
          body := ⟨[⟨"0", ["TypeA", "x"]⟩, ⟨"1", ["TypeB", "y"]⟩]⟩,
          originalBody := ⟨[⟨"0", ["TypeA", "x"]⟩, ⟨"1", ["TypeB", "y"]⟩]⟩,
          deletedRows := [], deletedRowCount := 0 } ["0"])).body.rows =
      [⟨"0", ["TypeA", "x"]⟩, ⟨"1", ["TypeB", "y"]⟩] ∧
     ∀ t2 : TableWithContext, tableInvariant t2 → t2.deletedRows = [] → undoLast t2 = t2) :=
  ⟨by decide,
   applyDeletion_undoLast_roundtrip
     { id := "t", head := ⟨["Type", "Value"]⟩,
       body := ⟨[⟨"0", ["TypeA", "x"]⟩, ⟨"1", ["TypeB", "y"]⟩]⟩,
       originalBody := ⟨[⟨"0", ["TypeA", "x"]⟩, ⟨"1", ["TypeB", "y"]⟩]⟩,
       deletedRows := [], deletedRowCount := 0 } (by decide) ["0"]⟩

lemma deleteTableRows_congr_of_contains (t : TableWithContext)
    (dr1 dr2 : List (List String))
    (h : ∀ s, dr1.flatten.contains s = dr2.flatten.contains s) :
    (deleteTableRows t dr1).body = (deleteTableRows t dr2).body ∧
    (deleteTableRows t dr1).deletedRowCount = (deleteTableRows t dr2).deletedRowCount := by
  have hf : t.originalBody.rows.filter (fun row => ¬ dr1.flatten.contains row.id)
      = t.originalBody.rows.filter (fun row => ¬ dr2.flatten.contains row.id) := by
    apply List.filter_congr
    intro a _
    simp only [h a.id]
  constructor
  · simp only [deleteTableRows, hf]
  · simp only [deleteTableRows, hf]

/-- **C3.** Deleting the same row identifier twice — within one batch or
across two batches — produces the same visible body and the same
`deletedRowCount` as deleting it once; the row is gone from the visible
body; and `deletedRowCount` counts each removed original row exactly once
(it equals the number of original rows whose id lies in the union of the
batches, not the sum of batch sizes). -/
theorem deletion_idempotent (t : TableWithContext) (dr : List (List String)) (x : String) :
    ((deleteTableRows t (dr ++ [[x, x]])).body = (deleteTableRows t (dr ++ [[x]])).body ∧
     (deleteTableRows t (dr ++ [[x, x]])).deletedRowCount =
       (deleteTableRows t (dr ++ [[x]])).deletedRowCount) ∧
    ((deleteTableRows t (dr ++ [[x], [x]])).body = (deleteTableRows t (dr ++ [[x]])).body ∧
     (deleteTableRows t (dr ++ [[x], [x]])).deletedRowCount =
       (deleteTableRows t (dr ++ [[x]])).deletedRowCount) ∧
    (∀ r ∈ (deleteTableRows t (dr ++ [[x]])).body.rows, r.id ≠ x) ∧
    (deleteTableRows t (dr ++ [[x]])).deletedRowCount =
      (t.originalBody.rows.filter (fun r => (dr ++ [[x]]).flatten.contains r.id)).length := by
  refine ⟨?_, ?_, ?_, ?_⟩
  · apply deleteTableRows_congr_of_contains
    intro s
    simp [List.flatten_append]
  · apply deleteTableRows_congr_of_contains
    intro s
    simp [List.flatten_append]
  · intro r hr
    simp [deleteTableRows, List.flatten_append] at hr
    exact hr.2.2
  · have hlen := List.length_eq_length_filter_add
      (l := t.originalBody.rows) (fun r => (dr ++ [[x]]).flatten.contains r.id)
    simp only [deleteTableRows]
    simp only [decide_not, Bool.decide_coe] at hlen ⊢
    omega

/-- Witness for C3 on a concrete table with a duplicated deletion of row "0". -/
theorem deletion_idempotent_witness :
    (deleteTableRows
        { id := "t", head := ⟨["Type"]⟩,
          body := ⟨[⟨"0", ["A"]⟩, ⟨"1", ["B"]⟩]⟩,
          originalBody := ⟨[⟨"0", ["A"]⟩, ⟨"1", ["B"]⟩]⟩,
          deletedRows := [], deletedRowCount := 0 } ([] ++ [["0", "0"]])).body =
      (deleteTableRows
        { id := "t", head := ⟨["Type"]⟩,
          body := ⟨[⟨"0", ["A"]⟩, ⟨"1", ["B"]⟩]⟩,
          originalBody := ⟨[⟨"0", ["A"]⟩, ⟨"1", ["B"]⟩]⟩,
          deletedRows := [], deletedRowCount := 0 } ([] ++ [["0"]])).body :=
  (deletion_idempotent
    { id := "t", head := ⟨["Type"]⟩,
      body := ⟨[⟨"0", ["A"]⟩, ⟨"1", ["B"]⟩]⟩,
      originalBody := ⟨[⟨"0", ["A"]⟩, ⟨"1", ["B"]⟩]⟩,
      deletedRows := [], deletedRowCount := 0 } [] "0").1.1

/-- Model of JavaScript `String.prototype.trim`: strip leading and trailing
whitespace characters. -/
def jsTrim (s : String) : String :=
  String.mk ((s.data.dropWhile Char.isWhitespace).reverse.dropWhile Char.isWhitespace).reverse

/-- The characters of the escaping character class in `searchRows`:
dash, slash, backslash, caret, dollar, star, plus, question mark, dot,
parentheses, pipe, square brackets and braces. -/
def regexSpecialChars : List Char :=
  ['-', '/', '\\', '^', '$', '*', '+', '?', '.', '(', ')', '|', '[', ']', '\x7b', '\x7d']

/-- The `replace` call of `searchRows`: its regular expression carries no
global flag, so only the FIRST special character of the query is prefixed
with a backslash (`\$&`); later special characters are left as they are. -/
def escapeFirstSpecial : List Char → List Char
  | [] => []
  | c :: rest =>
    if regexSpecialChars.contains c then '\\' :: c :: rest
    else c :: escapeFirstSpecial rest

/-- One single-character atom of the modelled ECMAScript RegExp fragment:
an escaped (hence literal) character, a plain literal character, or the
`.` wildcard. -/
inductive RegexAtom where
  | lit (c : Char)
  | anyChar
deriving Repr, DecidableEq

/-- Characters that ECMAScript RegExp syntax treats specially outside a
character class; patterns containing one of these unescaped (other than
`.`) fall outside the modelled fragment. -/
def jsMetaChars : List Char :=
  ['^', '$', '*', '+', '?', '(', ')', '|', '[', ']', '\x7b', '\x7d']

/-- Parser for the fragment of ECMAScript RegExp patterns produced by
`searchRows` that this embedding models: sequences of escaped specials,
plain literals and `.` wildcards.  Patterns using other syntax (anchors,
quantifiers, groups, alternation, classes) map to `none`; no theorem below
depends on a pattern outside the fragment. -/
def parsePatternAtoms : List Char → Option (List RegexAtom)
  | [] => some []
  | '\\' :: c :: rest =>
    if regexSpecialChars.contains c then
      (parsePatternAtoms rest).map (RegexAtom.lit c :: ·)
    else none
  | ['\\'] => none
  | '.' :: rest => (parsePatternAtoms rest).map (RegexAtom.anyChar :: ·)
  | c :: rest =>
    if jsMetaChars.contains c then none
    else (parsePatternAtoms rest).map (RegexAtom.lit c :: ·)

/-- Case-insensitive single-character match (the `i` flag): `.` matches any
character, a literal matches up to ASCII case folding. -/
def charMatchesCI : RegexAtom → Char → Bool
  | .anyChar, _ => true
  | .lit c, a => c.toLower == a.toLower

/-- Match the atom sequence against a prefix of the character list. -/
def atomsMatchHere : List RegexAtom → List Char → Bool
  | [], _ => true
  | _ :: _, [] => false
  | a :: as, c :: cs => charMatchesCI a c && atomsMatchHere as cs

/-- `RegExp.prototype.test`: the atom sequence matches at some position. -/
def atomsTest (atoms : List RegexAtom) : List Char → Bool
  | [] => atomsMatchHere atoms []
  | c :: rest => atomsMatchHere atoms (c :: rest) || atomsTest atoms rest

/-- `new RegExp(pattern, 'i').test(cell)` for patterns inside the modelled
fragment; `false` outside it. -/
def regexTestI (pattern : String) (cell : String) : Bool :=
  match parsePatternAtoms pattern.data with
  | some atoms => atomsTest atoms cell.data
  | none => false

/-- `Set.prototype.add` on the insertion-ordered duplicate-free list that
models a JavaScript `Set<string>`. -/
def searchIdSetAdd (ids : List String) (x : String) : List String :=
  if ids.contains x then ids else ids ++ [x]

/-- `searchRows` from `table_container.tsx`.  Returns `none` (JavaScript
`undefined`, the "unfiltered" sentinel) when the trimmed query is empty and
the data-type filter is `null`.  Otherwise one case-insensitive regex is
built from the trimmed query via `escapeFirstSpecial`, and a row is added
to the result set when (the trimmed query is empty or some cell passes the
regex test) and (`dataTypeIndex` — the index of the first cell, `-1` for a
cell-less row — is not `-1` and the filter is `null` or the first cell
equals the filter value, or the filter was `null` to begin with). -/
def searchRows (rows : List PropsUITableRow) (search : String)
    (dataTypeFilter : Option String) : Option (List String) :=
  if jsTrim search = "" ∧ dataTypeFilter = none then none
  else
    let pattern := String.mk (escapeFirstSpecial (jsTrim search).data)
    some (rows.foldl (fun ids row =>
      let matchesSearch := jsTrim search = "" ∨
        row.cells.any (fun cell => regexTestI pattern cell)
      let dataTypeIndex : Int := if row.cells.isEmpty then -1 else 0
      let matchesDataType := dataTypeFilter = none ∨
        (dataTypeIndex ≠ -1 ∧ (dataTypeFilter = none ∨ row.cells.head? = dataTypeFilter))
      if matchesSearch ∧ matchesDataType then searchIdSetAdd ids row.id else ids) [])

/-- Case-insensitive literal-substring matching, written from the claim's
words ("at least one cell case-insensitively contains the trimmed query as
a literal substring") to compare against the implementation. -/
def containsSublistCI : List Char → List Char → Bool
  | needle, [] => needle.isEmpty
  | needle, c :: rest => needle.isPrefixOf (c :: rest) || containsSublistCI needle rest

/-- Spec-side matcher: `cell` case-insensitively contains `query` as a
literal substring. -/
def matchesLiteralCI (cell query : String) : Bool :=
  containsSublistCI (query.data.map Char.toLower) (cell.data.map Char.toLower)

/-- **C4 (code bug).** The `replace` that escapes regex special characters
in `searchRows` lacks the global flag, so only the first special character
is escaped and later ones act as pattern syntax: for the query `".."`
against a single row whose only cell is `"x.y"`, the code returns the row
(the compiled pattern is `\..`, whose wildcard matches `.y`), although no
cell contains `".."` as a literal substring. -/
theorem searchRows_escapes_only_first_special :
    searchRows [⟨"0", ["x.y"]⟩] ".." none = some ["0"] ∧
    matchesLiteralCI "x.y" ".." = false := by
  constructor <;> decide

/-- **C5.** `searchRows` returns the "unfiltered" sentinel (`undefined`,
modelled as `none`) exactly when the trimmed query is empty and the type
filter is `null`; in particular a whitespace-only query with a `null`
filter yields the sentinel. -/
theorem search_unfiltered_sentinel (rows : List PropsUITableRow) (search : String)
    (dataTypeFilter : Option String) :
    (searchRows rows search dataTypeFilter = none ↔
      (jsTrim search = "" ∧ dataTypeFilter = none)) ∧
    searchRows rows "  " none = none := by
  constructor
  · by_cases h : jsTrim search = "" ∧ dataTypeFilter = none
    · simp [searchRows, h]
    · simp [searchRows, h]
  · have h : jsTrim "  " = "" := by decide
    simp [searchRows, h]

/-- A decoded `data_frame` object: an association list from column name to
the column's values in row-key order (JavaScript object keys are unique and
iterate in insertion order; the numeric row keys are "0", "1", ...).  Cell
values are taken as strings, as `String(...)` coerces them in `rowCell`. -/
abbrev DataFrame := List (String × List String)

/-- `columnNames` from `consent_form.tsx`: `Object.keys(dataFrame)`. -/
def columnNames (df : DataFrame) : List String := df.map Prod.fst

/-- `rowCell`: `String(dataFrame[column][row])`.  A missing row key gives
JavaScript `undefined`, which `String` renders as `"undefined"`; the
column itself always exists at call sites (it comes from `columnNames`). -/
def rowCell (df : DataFrame) (column : String) (row : Nat) : String :=
  match df.lookup column with
  | some col =>
    match col.get? row with
    | some v => v
    | none => "undefined"
  | none => "undefined"

/-- `rowCount`: `0` for a column-less frame, otherwise the number of keys
of the first column minus one (an `Int`, since it can be `-1`). -/
def rowCount (df : DataFrame) : Int :=
  match df with
  | [] => 0
  | (_, col) :: _ => (col.length : Int) - 1

/-- `rows`: the loop `for (row = 0; row <= n; row++)` with `n = rowCount`,
building one row per iteration with id `String(row)` and one cell per
column. -/
def rowsOfDataFrame (df : DataFrame) : List PropsUITableRow :=
  (List.range (rowCount df + 1).toNat).map (fun row =>
    { id := toString row, cells := (columnNames df).map (fun column => rowCell df column row) })

/-- `parseTable` from `consent_form.tsx`, with the localized title and
description and the visualization list elided (external collaborators) and
the `data_frame` JSON already decoded into a `DataFrame`.  The fresh table
has `body = originalBody`, an empty ledger and a zero deleted count. -/
def parseTable (id : String) (df : DataFrame) : TableWithContext :=
  let headCells := (columnNames df).map (fun column => column)
  let body : PropsUITableBody := ⟨rowsOfDataFrame df⟩
  { id := id, head := ⟨headCells⟩, body := body,
    originalBody := body, deletedRows := [], deletedRowCount := 0 }

/-- `serializeRow`: the `assert` on equal cell counts throws on failure
(modelled by `Except.error`), otherwise the row becomes
`_.fromPairs(_.zip(keys, values))`, modelled as the association list of
column names zipped with cell values. -/
def serializeRow (row : PropsUITableRow) (head : PropsUITableHead) :
    Except String (List (String × String)) :=
  if row.cells.length = head.cells.length then
    .ok (head.cells.zip row.cells)
  else
    .error "Number of cells in row should be equals to number of cells in head"

/-- `rows.map((row) => serializeRow(row, head))` where a thrown assertion
aborts the whole map: sequential serialization stopping at the first
mismatched row. -/
def serializeRows (rows : List PropsUITableRow) (head : PropsUITableHead) :
    Except String (List (List (String × String))) :=
  match rows with
  | [] => .ok []
  | r :: rest =>
    match serializeRow r head with
    | .error e => .error e
    | .ok sr =>
      match serializeRows rest head with
      | .error e => .error e
      | .ok srs => .ok (sr :: srs)

/-- `serializeTable`: `{ [id]: data }` with `data` the serialized rows of
the (possibly redacted) visible body. -/
def serializeTable (t : TableWithContext) :
    Except String (String × List (List (String × String))) :=
  match serializeRows t.body.rows t.head with
  | .error e => .error e
  | .ok data => .ok (t.id, data)

lemma serializeRows_ok_of_widths (rows : List PropsUITableRow) (head : PropsUITableHead)
    (h : ∀ r ∈ rows, r.cells.length = head.cells.length) :
    serializeRows rows head = .ok (rows.map (fun r => head.cells.zip r.cells)) := by
  induction rows with
  | nil => rfl
  | cons r rest ih =>
    have hr : r.cells.length = head.cells.length := h r (List.mem_cons_self r rest)
    have hrest := ih (fun r2 hr2 => h r2 (List.mem_cons_of_mem r hr2))
    simp [serializeRows, serializeRow, hr, hrest]

lemma serializeRows_error_of_bad_width (rows : List PropsUITableRow)
    (head : PropsUITableHead) (hbad : ¬ ∀ r ∈ rows, r.cells.length = head.cells.length) :
    ∀ out, serializeRows rows head ≠ .ok out := by
  induction rows with
  | nil => exact absurd (by simp) hbad
  | cons r rest ih =>
    intro out hout
    by_cases hr : r.cells.length = head.cells.length
    · have hbadrest : ¬ ∀ r2 ∈ rest, r2.cells.length = head.cells.length := by
        intro hall
        apply hbad
        intro r2 hr2
        rcases List.mem_cons.mp hr2 with h1 | h2
        · rw [h1]; exact hr
        · exact hall r2 h2
      cases hrest : serializeRows rest head with
      | error e => simp [serializeRows, serializeRow, hr, hrest] at hout
      | ok srs => exact ih hbadrest srs hrest
    · simp [serializeRows, serializeRow, hr] at hout

/-- **C9.** `serializeTable` succeeds exactly when every visible row's cell
count equals the head's cell count — a mismatched row aborts serialization
with an assertion failure rather than being truncated or padded (on
success every serialized record carries exactly one entry per head
column), and under the all-widths-match precondition the failure branch is
unreachable. -/
theorem serialization_width_check (t : TableWithContext) :
    ((∃ out, serializeTable t = .ok out) ↔
      ∀ r ∈ t.body.rows, r.cells.length = t.head.cells.length) ∧
    (∀ out, serializeTable t = .ok out →
      ∀ sr ∈ out.2, sr.length = t.head.cells.length) := by
  constructor
  · constructor
    · rintro ⟨out, hout⟩
      by_contra hbad
      have hrows : ∀ outr, serializeRows t.body.rows t.head ≠ .ok outr :=
        serializeRows_error_of_bad_width _ _ hbad
      cases hser : serializeRows t.body.rows t.head with
      | error e => simp [serializeTable, hser] at hout
      | ok srs => exact hrows srs hser
    · intro h
      refine ⟨(t.id, t.body.rows.map (fun r => t.head.cells.zip r.cells)), ?_⟩
      simp [serializeTable, serializeRows_ok_of_widths t.body.rows t.head h]
  · intro out hout sr hsr
    cases hser : serializeRows t.body.rows t.head with
    | error e => simp [serializeTable, hser] at hout
    | ok srs =>
      simp only [serializeTable, hser] at hout
      have hwidths : ∀ r ∈ t.body.rows, r.cells.length = t.head.cells.length := by
        by_contra hbad
        exact serializeRows_error_of_bad_width _ _ hbad srs hser
      have hok := serializeRows_ok_of_widths t.body.rows t.head hwidths
      rw [hser] at hok
      have hsrs : srs = t.body.rows.map (fun r => t.head.cells.zip r.cells) := by
        injection hok
      have hout2 : out.2 = srs := by
        cases hout; rfl
      rw [hout2, hsrs] at hsr
      rcases List.mem_map.mp hsr with ⟨r, hrmem, hreq⟩
      rw [← hreq, List.length_zip, hwidths r hrmem, Nat.min_self]

/-- Witness for C9: the width check passes on a well-formed table. -/
theorem serialization_width_check_witness :
    ∃ out, serializeTable
      { id := "t", head := ⟨["Type", "Value"]⟩,
        body := ⟨[⟨"0", ["TypeA", "x"]⟩]⟩,
        originalBody := ⟨[⟨"0", ["TypeA", "x"]⟩]⟩,
        deletedRows := [], deletedRowCount := 0 } = .ok out :=
  (serialization_width_check
    { id := "t", head := ⟨["Type", "Value"]⟩,
      body := ⟨[⟨"0", ["TypeA", "x"]⟩]⟩,
      originalBody := ⟨[⟨"0", ["TypeA", "x"]⟩]⟩,
      deletedRows := [], deletedRowCount := 0 }).1.mpr (by decide)

lemma lookup_eq_some_of_nodup_keys {β : Type} (l : List (String × β))
    (hnd : (l.map Prod.fst).Nodup) (c : String) (v : β) (hmem : (c, v) ∈ l) :
    l.lookup c = some v := by
  induction l with
  | nil => cases hmem
  | cons p rest ih =>
    obtain ⟨k, w⟩ := p
    rcases List.mem_cons.mp hmem with h1 | h2
    · cases h1
      simp [List.lookup]
    · have hck : c ≠ k := by
        intro hceq
        have hcmem : c ∈ rest.map Prod.fst := List.mem_map.mpr ⟨(c, v), h2, rfl⟩
        have hknot : k ∉ rest.map Prod.fst := (List.nodup_cons.mp hnd).1
        rw [hceq] at hcmem
        exact hknot hcmem
      have htail := ih (List.nodup_cons.mp hnd).2 h2
      have hbeq : (c == k) = false := beq_eq_false_iff_ne.mpr hck
      simp [List.lookup, hbeq, htail]

lemma zip_map_self {α β : Type} (l : List α) (g : α → β) :
    l.zip (l.map g) = l.map (fun a => (a, g a)) := by
  induction l with
  | nil => rfl
  | cons a rest ih => simp [ih]

lemma serializedRow_lookup (df : DataFrame) (hnd : (df.map Prod.fst).Nodup)
    (i : Nat) (c : String) (colVals : List String) (hmem : (c, colVals) ∈ df)
    (hilen : i < colVals.length) :
    ((columnNames df).zip
      ((columnNames df).map (fun column => rowCell df column i))).lookup c
      = colVals[i]? := by
  rw [zip_map_self (columnNames df) (fun column => rowCell df column i)]
  have hmm : (columnNames df).map (fun c2 => (c2, rowCell df c2 i))
      = df.map (fun p => (p.1, rowCell df p.1 i)) := by
    simp [columnNames, List.map_map]
  rw [hmm]
  have hkeys : ((df.map (fun p => (p.1, rowCell df p.1 i))).map Prod.fst).Nodup := by
    simpa [List.map_map] using hnd
  have hmem2 : (c, rowCell df c i) ∈ df.map (fun p => (p.1, rowCell df p.1 i)) :=
    List.mem_map.mpr ⟨(c, colVals), hmem, rfl⟩
  rw [lookup_eq_some_of_nodup_keys _ hkeys c _ hmem2]
  have hlk : df.lookup c = some colVals := lookup_eq_some_of_nodup_keys df hnd c colVals hmem
  cases hg : colVals[i]? with
  | none =>
    exact absurd (List.getElem?_eq_none_iff.mp hg) (Nat.not_le_of_lt hilen)
  | some v => simp [rowCell, hlk, List.get?_eq_getElem?, hg]

/-- **C8.** Serialization round-trip: parsing a data-frame object (with
its distinct column names and equal-height columns) and serializing the
table back with zero redactions succeeds and yields one record per parsed
row in which every column name maps to exactly the original input's cell
value at that row index. -/
theorem serialization_roundtrip (id : String) (df : DataFrame)
    (hnd : (df.map Prod.fst).Nodup)
    (hlen : ∀ p ∈ df, p.2.length = (rowCount df + 1).toNat) :
    ∃ out, serializeTable (parseTable id df) = .ok out ∧
      out.1 = id ∧
      out.2.length = (rowCount df + 1).toNat ∧
      ∀ (i : Nat) (c : String) (colVals : List String), (c, colVals) ∈ df →
        ∀ sr : List (String × String),
        out.2[i]? = some sr → sr.lookup c = colVals[i]? := by
  have hheadcells : (parseTable id df).head.cells = columnNames df := by
    simp [parseTable]
  have hwidths : ∀ r ∈ (parseTable id df).body.rows,
      r.cells.length = (parseTable id df).head.cells.length := by
    intro r hr
    obtain ⟨i, _, rfl⟩ := List.mem_map.mp hr
    simp [parseTable, columnNames]
  have hser := serializeRows_ok_of_widths _ _ hwidths
  refine ⟨(id, (parseTable id df).body.rows.map
      (fun r => (parseTable id df).head.cells.zip r.cells)), ?_, rfl, ?_, ?_⟩
  · simp only [serializeTable, hser]
    rfl
  · simp [parseTable, rowsOfDataFrame]
  · intro i c colVals hmem sr hsr
    have hrows : (parseTable id df).body.rows = (List.range (rowCount df + 1).toNat).map
        (fun row => PropsUITableRow.mk (toString row)
          ((columnNames df).map (fun column => rowCell df column row))) := rfl
    rw [hrows, List.map_map] at hsr
    by_cases hi : i < (rowCount df + 1).toNat
    · rw [List.getElem?_map, List.getElem?_range hi] at hsr
      simp only [Option.map_some', Option.some.injEq, Function.comp_apply] at hsr
      have hilen : i < colVals.length := by
        rw [hlen (c, colVals) hmem]; exact hi
      rw [← hsr, hheadcells]
      exact serializedRow_lookup df hnd i c colVals hmem hilen
    · rw [List.getElem?_map] at hsr
      rw [List.getElem?_eq_none_iff.mpr (by simpa using Nat.le_of_not_lt hi)] at hsr
      simp at hsr

/-- Witness for C8 on a concrete two-column data frame. -/
theorem serialization_roundtrip_witness :
    (([("A", ["x", "y"]), ("B", ["u", "v"])].map Prod.fst).Nodup ∧
      ∀ p ∈ [("A", ["x", "y"]), ("B", ["u", "v"])],
        p.2.length = (rowCount [("A", ["x", "y"]), ("B", ["u", "v"])] + 1).toNat) ∧
    ∃ out, serializeTable (parseTable "t" [("A", ["x", "y"]), ("B", ["u", "v"])]) = .ok out ∧
      out.1 = "t" ∧
      out.2.length = (rowCount [("A", ["x", "y"]), ("B", ["u", "v"])] + 1).toNat ∧
      ∀ (i : Nat) (c : String) (colVals : List String),
        (c, colVals) ∈ [("A", ["x", "y"]), ("B", ["u", "v"])] →
        ∀ sr : List (String × String), out.2[i]? = some sr → sr.lookup c = colVals[i]? :=
  ⟨⟨by decide, by decide⟩,
   serialization_roundtrip "t" [("A", ["x", "y"]), ("B", ["u", "v"])]
     (by decide) (by decide)⟩

/-- A JavaScript exception as the worker distinguishes them: a
`RangeError` with its message, or any other error with its message. -/
inductive JsError where
  | rangeError (msg : String)
  | error (msg : String)
deriving Repr, DecidableEq

/-- One entry of a chart data sequence (a record carrying the synthesized
sortable key `__x`): the key (`none` models null/undefined) plus the
remaining series fields, kept opaque as string pairs. -/
structure ChartItem where
  x : Option String
  series : List (String × String)
deriving Repr, DecidableEq

/-- A prepared visualization payload: chart data (tagged with the chart
type and carrying a `data` array) or word-cloud text data (token and
frequency pairs). -/
inductive VisualizationData where
  | chart (typ : String) (data : List ChartItem)
  | text (tokens : List (String × Nat))
deriving Repr, DecidableEq

/-- The message posted by the worker back to the hook. -/
structure WorkerMsg where
  status : String
  visualizationData : Option VisualizationData
deriving Repr, DecidableEq

/-- The hook's result status: `loading`, `success` or `error`. -/
inductive Status where
  | loading
  | success
  | error
deriving Repr, DecidableEq

/-- A visualization descriptor, dispatched on its `type` tag; the encoding
configuration is reduced to the index of the key-bearing (chart) or
text-bearing (word cloud) column. -/
structure VisualizationType where
  type : String
  column : Nat
deriving Repr, DecidableEq

/-- Modelled from the spec: the body of `prepareChartData` (imported by
the worker from `visualizationDataFunctions/prepareChartData`) is not
under `src/`.  Following section 4.3, chart preparation derives a sortable
key per visible row from the configured encoding fields; key derivation is
reduced here to the configured column's cell text.  Only its role as the
chart endpoint of the dispatch matters to the theorems below. -/
def prepareChartData (table : TableWithContext) (vis : VisualizationType) :
    Except JsError VisualizationData :=
  .ok (.chart vis.type (table.body.rows.map (fun row =>
    { x := row.cells[vis.column]?, series := [] })))

/-- Modelled from the spec: the body of `prepareTextData` is not under
`src/`.  Following section 4.3, text preparation tokenizes the configured
text column and aggregates token frequencies; reduced here to counting the
column's cell values.  Only its role as the word-cloud endpoint of the
dispatch matters to the theorems below. -/
def prepareTextData (table : TableWithContext) (vis : VisualizationType) :
    Except JsError VisualizationData :=
  let toks := table.body.rows.filterMap (fun row => row.cells[vis.column]?)
  .ok (.text (toks.dedup.map (fun tok => (tok, toks.count tok))))

/-- Function `createVisualizationData` from the worker: both inputs are
required, then the dispatch is purely on the descriptor tag — line, bar
and area to chart preparation, wordcloud to text preparation, anything
else throws an unsupported-type error.  The internal catch only logs
(differently for the RangeError "Invalid time value") before re-throwing,
so the thrown error is the function's rejection value. -/
def createVisualizationData (table : Option TableWithContext)
    (visualization : Option VisualizationType) : Except JsError VisualizationData :=
  match table, visualization with
  | some table, some visualization =>
    if visualization.type ∈ ["line", "bar", "area"] then
      prepareChartData table visualization
    else if visualization.type ∈ ["wordcloud"] then
      prepareTextData table visualization
    else
      .error (.error ("Visualization type " ++ visualization.type ++ " not supported"))
  | _, _ => .error (.error "Table and visualization are required")

/-- The worker's `onmessage` reply: a fulfilled preparation posts
status "success" with the data; every rejection — including the
RangeError with message "Invalid time value", whose branch only logs
differently — posts status "error" with `undefined` data. -/
def workerReply (result : Except JsError VisualizationData) : WorkerMsg :=
  match result with
  | .ok vd => { status := "success", visualizationData := some vd }
  | .error _ => { status := "error", visualizationData := none }

/-- The `__x` values that the hook filters out of chart data in addition
to null and undefined. -/
def invalidXSentinels : List String :=
  ["NaN-QNaN", "NaN-Invalid Date", "Invalid Date", "NaN", "NaN-Invalid Date-NaN",
   "Invalid Date-NaN-NaN", "Invalid Date-NaN"]

/-- The `worker.onmessage` handler of `useVisualizationData`: an error
status or missing payload gives status `error` with no data; a chart
payload has its entries with null, undefined or sentinel `__x` filtered
out — all entries gone gives `success` with no data, otherwise `success`
with the cleaned data; any non-chart payload is passed through with
`success`. -/
def hookHandle (msg : WorkerMsg) : Status × Option VisualizationData :=
  if msg.status = "error" ∨ msg.visualizationData = none then (.error, none)
  else
    match msg.visualizationData with
    | some (.chart typ data) =>
      let cleanedData := data.filter (fun item =>
        match item.x with
        | none => false
        | some s => ¬ invalidXSentinels.contains s)
      if cleanedData.length = 0 then (.success, none)
      else (.success, some (.chart typ cleanedData))
    | some vd => (.success, some vd)
    | none => (.error, none)

/-- Counterexample to C6: a preparation rejected with
RangeError("Invalid time value") reaches the caller as status `error`
with no data — not as the success state the claim asserts. -/
theorem invalid_time_value_yields_error_status :
    hookHandle (workerReply (.error (JsError.rangeError "Invalid time value")))
      = (Status.error, none) ∧
    (hookHandle (workerReply (.error (JsError.rangeError "Invalid time value")))).1
      ≠ Status.success := by
  constructor <;> decide

/-- Amended C6: every rejected preparation — RangeError "Invalid time
value" included, whose special-casing only affects logging — surfaces to the
caller as status `error` with an undefined payload; and a successfully
prepared chart whose only entry carries an unparseable-date sentinel key
(such as "Invalid Date") is filtered by the hook and yields status
`success` with an undefined payload, not an error. -/
theorem visualization_error_paths (e : JsError) :
    hookHandle (workerReply (.error e)) = (Status.error, none) ∧
    hookHandle (workerReply (.ok (.chart "line" [⟨some "Invalid Date", []⟩])))
      = (Status.success, none) := by
  constructor
  · simp [workerReply, hookHandle]
  · decide

/-- C7: `createVisualizationData` dispatches purely on the descriptor tag —
line, bar and area go to chart preparation, wordcloud goes to text
preparation, and every other tag is rejected with an unsupported-type
error, which the worker delivers to the caller as an explicit error
message rather than a silent no-op or an empty success. -/
theorem visualization_dispatch (t : TableWithContext) (v : VisualizationType) :
    (v.type ∈ ["line", "bar", "area"] →
      createVisualizationData (some t) (some v) = prepareChartData t v) ∧
    (v.type = "wordcloud" →
      createVisualizationData (some t) (some v) = prepareTextData t v) ∧
    (v.type ∉ ["line", "bar", "area", "wordcloud"] →
      createVisualizationData (some t) (some v) =
        .error (.error ("Visualization type " ++ v.type ++ " not supported")) ∧
      workerReply (createVisualizationData (some t) (some v)) =
        { status := "error", visualizationData := none }) := by
  refine ⟨?_, ?_, ?_⟩
  · intro h
    simp [createVisualizationData, h]
  · intro h
    simp [createVisualizationData, h]
  · intro h
    simp only [List.mem_cons, List.not_mem_nil, or_false, not_or] at h
    obtain ⟨hl, hb, ha, hw⟩ := h
    have hc : createVisualizationData (some t) (some v) =
        .error (.error ("Visualization type " ++ v.type ++ " not supported")) := by
      simp [createVisualizationData, hl, hb, ha, hw]
    exact ⟨hc, by rw [hc]; rfl⟩

/-- Witness for C7: the unsupported tag "pie" is rejected with the
unsupported-type error. -/
theorem visualization_dispatch_witness :
    ("pie" ∉ ["line", "bar", "area", "wordcloud"]) ∧
    createVisualizationData
      (some { id := "t", head := ⟨["Type"]⟩, body := ⟨[]⟩, originalBody := ⟨[]⟩,
              deletedRows := [], deletedRowCount := 0 })
      (some ⟨"pie", 0⟩) =
      .error (.error ("Visualization type " ++ "pie" ++ " not supported")) :=
  ⟨by decide,
   ((visualization_dispatch
     { id := "t", head := ⟨["Type"]⟩, body := ⟨[]⟩, originalBody := ⟨[]⟩,
       deletedRows := [], deletedRowCount := 0 } ⟨"pie", 0⟩).2.2 (by decide)).1⟩

/-- The container's component state: its table together with the owned
search/filter state — the current query text, the optional data-type
filter, and the debounced search result. -/
structure ContainerState where
  table : TableWithContext
  search : String
  dataTypeFilter : Option String
  searchFilterIds : Option (List String)
deriving Repr, DecidableEq

/-- One user-level container operation: typing a search query (with its
debounced `searchRows` evaluation), choosing a data-type filter
(`handleDataTypeFilter`, the empty string clearing it), deleting an
explicitly selected batch of row ids (`handleDelete` with `rowIds`
provided), or undoing the last batch (`handleUndo`). -/
inductive ContainerOp where
  | setSearch (q : String)
  | setDataTypeFilter (dt : String)
  | delete (rowIds : List String)
  | undo
deriving Repr, DecidableEq

/-- The `searchedTable` memo of the container: the locally rendered view,
narrowing the visible body to the ids in the search result when one is
present. -/
def searchedTable (table : TableWithContext) (searchFilterIds : Option (List String)) :
    TableWithContext :=
  match searchFilterIds with
  | none => table
  | some ids =>
    { table with body := { rows := table.body.rows.filter (fun row => ids.contains row.id) } }

/-- One step of the container.  Search and filter changes re-run
`searchRows` over `originalBody.rows` and touch only the search state.
`handleDelete` with an explicit nonempty batch resets the search state
when the batch covers the whole searched view, and updates the table via
`deleteTableRows` with the batch appended — the table update itself never
reads the search state.  `handleUndo` updates the table via
`deleteTableRows` with the last batch dropped. -/
def containerStep (op : ContainerOp) (s : ContainerState) : ContainerState :=
  match op with
  | .setSearch q =>
    { s with
      search := q
      searchFilterIds := searchRows s.table.originalBody.rows q s.dataTypeFilter }
  | .setDataTypeFilter dt =>
    let newFilter := if dt = "" then none else some dt
    { s with
      dataTypeFilter := newFilter
      searchFilterIds := searchRows s.table.originalBody.rows s.search newFilter }
  | .delete rowIds =>
    if rowIds.length > 0 then
      let searched := searchedTable s.table s.searchFilterIds
      let reset := rowIds.length = searched.body.rows.length
      { table := deleteTableRows s.table (s.table.deletedRows ++ [rowIds])
        search := if reset then "" else s.search
        dataTypeFilter := if reset then none else s.dataTypeFilter
        searchFilterIds := if reset then none else s.searchFilterIds }
    else s
  | .undo =>
    { s with table := deleteTableRows s.table s.table.deletedRows.dropLast }

/-- Run a sequence of container operations, oldest first. -/
def runContainer (ops : List ContainerOp) (s : ContainerState) : ContainerState :=
  ops.foldl (fun s op => containerStep op s) s

/-- The effect of a container operation on the table alone. -/
def tableStep (op : ContainerOp) (t : TableWithContext) : TableWithContext :=
  match op with
  | .delete rowIds =>
    if rowIds.length > 0 then deleteTableRows t (t.deletedRows ++ [rowIds]) else t
  | .undo => deleteTableRows t t.deletedRows.dropLast
  | _ => t

/-- Deletion-ledger operations among the container operations. -/
def isDeletionOp : ContainerOp → Bool
  | .delete _ => true
  | .undo => true
  | _ => false

lemma containerStep_table (op : ContainerOp) (s : ContainerState) :
    (containerStep op s).table = tableStep op s.table := by
  cases op with
  | setSearch q => rfl
  | setDataTypeFilter dt => rfl
  | delete rowIds =>
    by_cases h : rowIds.length > 0 <;> simp [containerStep, tableStep, h]
  | undo => rfl

lemma tableStep_id_of_not_deletion (op : ContainerOp) (t : TableWithContext)
    (h : isDeletionOp op = false) : tableStep op t = t := by
  cases op <;> simp_all [isDeletionOp, tableStep]

lemma runContainer_table (ops : List ContainerOp) (s : ContainerState) :
    (runContainer ops s).table =
      (ops.filter isDeletionOp).foldl (fun t op => tableStep op t) s.table := by
  induction ops generalizing s with
  | nil => rfl
  | cons o os ih =>
    have hstep : runContainer (o :: os) s = runContainer os (containerStep o s) := rfl
    rw [hstep, ih (containerStep o s), containerStep_table]
    cases ho : isDeletionOp o with
    | true => simp [List.filter_cons, ho]
    | false =>
      simp [List.filter_cons, ho, tableStep_id_of_not_deletion o s.table ho]

/-- C10: the donated payload is independent of the search/filter state.
Two runs from the same table whose delete/undo operations agree, while
search-query and data-type-filter operations differ arbitrarily, end with
identical tables and identical serialized consent data: serialization
reads `table.body`, which `deleteTableRows` derives from `originalBody`
and `deletedRows` alone, while search results only narrow the locally
rendered `searchedTable` view. -/
theorem search_state_noninterference
    (s1 s2 : ContainerState) (ops1 ops2 : List ContainerOp)
    (htab : s1.table = s2.table)
    (hdel : ops1.filter isDeletionOp = ops2.filter isDeletionOp) :
    serializeTable (runContainer ops1 s1).table
      = serializeTable (runContainer ops2 s2).table ∧
    (runContainer ops1 s1).table = (runContainer ops2 s2).table := by
  have heq : (runContainer ops1 s1).table = (runContainer ops2 s2).table := by
    rw [runContainer_table, runContainer_table, hdel, htab]
  exact ⟨by rw [heq], heq⟩

/-- A sample two-row table used by the C10 witness. -/
def donationTable : TableWithContext :=
  ⟨"t", ⟨["Type", "Value"]⟩, ⟨[⟨"0", ["TypeA", "x"]⟩, ⟨"1", ["TypeB", "y"]⟩]⟩,
   ⟨[⟨"0", ["TypeA", "x"]⟩, ⟨"1", ["TypeB", "y"]⟩]⟩, [], 0⟩

/-- The sample container state over `donationTable` with no active search. -/
def donationState : ContainerState := ⟨donationTable, "", none, none⟩

/-- Witness for C10: one run types a query and filters by type, the other
does not; with the same single deletion both serialize identically. -/
theorem search_state_noninterference_witness :
    (donationState.table = donationState.table ∧
     [ContainerOp.setSearch "typea", ContainerOp.setDataTypeFilter "TypeA",
       ContainerOp.delete ["0"]].filter isDeletionOp =
      [ContainerOp.delete ["0"], ContainerOp.setSearch "zzz"].filter isDeletionOp) ∧
    serializeTable (runContainer [ContainerOp.setSearch "typea",
        ContainerOp.setDataTypeFilter "TypeA", ContainerOp.delete ["0"]] donationState).table
      = serializeTable (runContainer [ContainerOp.delete ["0"],
        ContainerOp.setSearch "zzz"] donationState).table :=
  ⟨⟨rfl, by decide⟩,
   (search_state_noninterference donationState donationState
     [ContainerOp.setSearch "typea", ContainerOp.setDataTypeFilter "TypeA",
       ContainerOp.delete ["0"]]
     [ContainerOp.delete ["0"], ContainerOp.setSearch "zzz"]
     rfl (by decide)).1⟩

/-- Witness for C5 at a concrete row list: the whitespace-only query with
no filter yields the sentinel. -/
theorem search_unfiltered_sentinel_witness :
    searchRows [⟨"0", ["Apple"]⟩] "  " none = none :=
  (search_unfiltered_sentinel [⟨"0", ["Apple"]⟩] "  " none).2

/-- Witness for the amended C6 at a concrete non-range error. -/
theorem visualization_error_paths_witness :
    hookHandle (workerReply (.error (JsError.error "boom"))) = (Status.error, none) :=
  (visualization_error_paths (JsError.error "boom")).1
